import Mathlib

/-!
# Verification of the book-api in-memory store and request handlers

Shallow embedding of `src/routes.py` and `src/models/book.py`.

The service keeps a single in-memory list of `Book` records and exposes
handlers for list, get-by-id, create, update, delete and search.  Python
does not enforce the `str` annotations of the `Book` dataclass: the update
handler assigns `data[field]` unconditionally when the key is present, so a
JSON `null` can land in any field.  We therefore model every string-valued
field of a stored book as `Option String`, where `none` stands for Python
`None`, and `published_year` as `Option Int`.

String helpers (`pyLower`, `pyStrip`, `strIn`) model the Python methods
`str.lower`, `str.strip` and the `in` operator for the ASCII range that the
repository's data and the claims exercise: `pyLower` maps `A`–`Z` to
`a`–`z` and fixes every other character; `pyStrip` removes the ASCII
whitespace characters that `str.strip` removes.
-/

namespace BookApi

/-- `str.lower` on one character (ASCII range). -/
def pyToLower (c : Char) : Char :=
  if 'A' ≤ c ∧ c ≤ 'Z' then Char.ofNat (c.toNat + 32) else c

/-- Models Python `s.lower()` (ASCII range). -/
def pyLower (s : String) : String :=
  ⟨s.toList.map pyToLower⟩

/-- The characters Python `str.strip()` removes, restricted to ASCII. -/
def isPySpace (c : Char) : Bool :=
  c == ' ' || c == '\t' || c == '\n' || c == '\r' || c == '\x0b' || c == '\x0c'

/-- Models Python `s.strip()` (ASCII whitespace). -/
def pyStrip (s : String) : String :=
  ⟨((s.toList.dropWhile isPySpace).reverse.dropWhile isPySpace).reverse⟩

/-- `leadsWith nd hay` holds when `hay` opens with the block `nd`. -/
def leadsWith : List Char → List Char → Bool
  | [], _ => true
  | _ :: _, [] => false
  | a :: nd, b :: hay => a == b && leadsWith nd hay

/-- `occursIn nd hay`: the block `nd` occurs contiguously inside `hay`. -/
def occursIn : List Char → List Char → Bool
  | nd, [] => nd.isEmpty
  | nd, c :: hay => leadsWith nd (c :: hay) || occursIn nd hay

/-- Models Python `needle in hay` on strings. -/
def strIn (needle hay : String) : Bool :=
  occursIn needle.toList hay.toList

/-- The `Book` dataclass of `src/models/book.py`.  String fields are
`Option String` because Python can store `None` in them (see header). -/
structure Book where
  id : Nat
  title : Option String
  author : Option String
  language : Option String
  isbn : Option String
  published_year : Option Int
  genre : Option String
deriving Repr, DecidableEq

/-- The store: the module-level `books_data` list, insertion-ordered. -/
abbrev State := List Book

/-- The seven books `books_data` starts with in `src/routes.py`. -/
def initialBooks : State := [
  { id := 1, title := some "To Kill a Mockingbird", author := some "Harper Lee",
    language := some "English", isbn := some "978-0-06-112008-4",
    published_year := some 1960, genre := some "Fiction" },
  { id := 2, title := some "1984", author := some "George Orwell",
    language := some "English", isbn := some "978-0-452-28423-4",
    published_year := some 1949, genre := some "Dystopian Fiction" },
  { id := 3, title := some "Pride and Prejudice", author := some "Jane Austen",
    language := some "English", isbn := some "978-0-14-143951-8",
    published_year := some 1813, genre := some "Romance" },
  { id := 4, title := some "The Great Gatsby", author := some "F. Scott Fitzgerald",
    language := some "English", isbn := some "978-0-7432-7356-5",
    published_year := some 1925, genre := some "Fiction" },
  { id := 5, title := some "One Hundred Years of Solitude",
    author := some "Gabriel García Márquez", language := some "Spanish",
    isbn := some "978-0-06-088328-7", published_year := some 1967,
    genre := some "Magical Realism" },
  { id := 6, title := some "The Catcher in the Rye", author := some "J.D. Salinger",
    language := some "English", isbn := some "978-0-316-76948-0",
    published_year := some 1951, genre := some "Fiction" },
  { id := 7, title := some "Don Quixote", author := some "Miguel de Cervantes",
    language := some "Spanish", isbn := some "978-0-06-093434-4",
    published_year := some 1605, genre := some "Adventure" }]

/-- `find_book_by_id`: first book whose `id` matches, or `None`. -/
def find_book_by_id (books : State) (book_id : Nat) : Option Book :=
  books.find? (fun b => b.id == book_id)

/-- `get_next_book_id`: `max(book.id for book in books_data) + 1` when the
store is non-empty, else `1`. -/
def get_next_book_id (books : State) : Nat :=
  match books.map Book.id with
  | [] => 1
  | i :: is => is.foldl Nat.max i + 1

/-- Python truthiness of `data.get(field)` for a string-valued key:
`False` exactly for a missing key, a `None` value, or the empty string. -/
def truthyStr : Option String → Bool
  | none => false
  | some s => !(s == "")

/-- Body of a create request.  `data.get` collapses an absent key and a
`null` value, so a single `Option` layer is faithful here: `none` models
both. -/
structure CreateBody where
  title : Option String
  author : Option String
  language : Option String
  isbn : Option String
  published_year : Option Int
  genre : Option String
deriving Repr, DecidableEq

/-- Outcome of the create handler. -/
inductive CreateOut where
  | missingField (f : String)
  | created (b : Book)
deriving Repr, DecidableEq

def CreateOut.statusCode : CreateOut → Nat
  | .missingField _ => 400
  | .created _ => 201

def CreateOut.message : CreateOut → String
  | .missingField f => "Missing required field: " ++ f
  | .created _ => "Book created successfully"

/-- The `Book(id=get_next_book_id(), ...)` constructor call of `create_book`. -/
def mkNewBook (books : State) (data : CreateBody) : Book :=
  { id := get_next_book_id books
    title := data.title
    author := data.author
    language := data.language
    isbn := data.isbn
    published_year := data.published_year
    genre := data.genre }

/-- `create_book`: validate `title`, `author`, `language` in that order with
`not data.get(field)`; on success build the book with `id = get_next_book_id()`
and append it to `books_data`. -/
def create_book (books : State) (data : CreateBody) : CreateOut × State :=
  if !truthyStr data.title then (.missingField "title", books)
  else if !truthyStr data.author then (.missingField "author", books)
  else if !truthyStr data.language then (.missingField "language", books)
  else
    let new_book : Book := mkNewBook books data
    (.created new_book, books ++ [new_book])

/-- Body of an update request.  The outer `Option` is key presence
(`'field' in data`); the inner value is the JSON value, with `none`
modelling `null`.  The handler never reads the `id` key, but a request may
carry one, so it is representable. -/
structure UpdateBody where
  id : Option Int
  title : Option (Option String)
  author : Option (Option String)
  language : Option (Option String)
  isbn : Option (Option String)
  published_year : Option (Option Int)
  genre : Option (Option String)
deriving Repr, DecidableEq

/-- The six `if 'field' in data: book.field = data['field']` statements of
`update_book`, applied to one book. -/
def applyUpdate (data : UpdateBody) (b : Book) : Book :=
  let b := match data.title with | some v => { b with title := v } | none => b
  let b := match data.author with | some v => { b with author := v } | none => b
  let b := match data.language with | some v => { b with language := v } | none => b
  let b := match data.isbn with | some v => { b with isbn := v } | none => b
  let b := match data.published_year with
           | some v => { b with published_year := v } | none => b
  match data.genre with | some v => { b with genre := v } | none => b

/-- In-place mutation of the first book with the given id (the object
`find_book_by_id` returned), all positions preserved. -/
def updateFirst (books : State) (book_id : Nat) (data : UpdateBody) : State :=
  match books with
  | [] => []
  | b :: rest =>
      if b.id == book_id then applyUpdate data b :: rest
      else b :: updateFirst rest book_id data

/-- Outcome of the update handler. -/
inductive UpdateOut where
  | notFound (book_id : Nat)
  | updated (b : Book)
deriving Repr, DecidableEq

def UpdateOut.statusCode : UpdateOut → Nat
  | .notFound _ => 404
  | .updated _ => 200

def UpdateOut.message : UpdateOut → String
  | .notFound i => "Book with ID " ++ toString i ++ " not found"
  | .updated _ => "Book updated successfully"

/-- `update_book`: 404 when `find_book_by_id` misses; otherwise mutate the
found book field-by-field and return it. -/
def update_book (books : State) (book_id : Nat) (data : UpdateBody) :
    UpdateOut × State :=
  match find_book_by_id books book_id with
  | none => (.notFound book_id, books)
  | some book => (.updated (applyUpdate data book), updateFirst books book_id data)

/-- `books_data.remove(book)` where `book` is the first book with the given
id: dataclass equality is structural, and no earlier element can equal
`book` (it would match the id first), so the removed element is exactly the
first id match. -/
def removeFirst (books : State) (book_id : Nat) : State :=
  match books with
  | [] => []
  | b :: rest => if b.id == book_id then rest else b :: removeFirst rest book_id

/-- Outcome of the delete handler. -/
inductive DeleteOut where
  | notFound (book_id : Nat)
  | deleted (book_id : Nat)
deriving Repr, DecidableEq

def DeleteOut.statusCode : DeleteOut → Nat
  | .notFound _ => 404
  | .deleted _ => 200

def DeleteOut.message : DeleteOut → String
  | .notFound i => "Book with ID " ++ toString i ++ " not found"
  | .deleted i => "Book with ID " ++ toString i ++ " deleted successfully"

/-- `delete_book`: 404 when `find_book_by_id` misses, else remove. -/
def delete_book (books : State) (book_id : Nat) : DeleteOut × State :=
  match find_book_by_id books book_id with
  | none => (.notFound book_id, books)
  | some _ => (.deleted book_id, removeFirst books book_id)

/-- The match test of the search loop for one book, with Python's
short-circuit `or` and the `AttributeError` (modelled as `Except.error`)
raised by `.lower()` on a `None` field. -/
def bookHit (query : String) (b : Book) : Except Unit Bool :=
  match b.title with
  | none => .error ()
  | some t =>
    if strIn query (pyLower t) then .ok true
    else match b.author with
      | none => .error ()
      | some a =>
        if strIn query (pyLower a) then .ok true
        else match b.language with
          | none => .error ()
          | some l => .ok (strIn query (pyLower l))

/-- The `for book in books_data` loop of `search_book`: collect matches in
store order, aborting with the exception when a test raises. -/
def searchScan (query : String) : State → Except Unit (List Book)
  | [] => .ok []
  | b :: rest =>
      match bookHit query b with
      | .error e => .error e
      | .ok m =>
          match searchScan query rest with
          | .error e => .error e
          | .ok ms => .ok (if m then b :: ms else ms)

/-- Outcome of the search handler. -/
inductive SearchOut where
  | queryRequired
  | results (data : List Book) (total : Nat) (query : String)
  | internalError
deriving Repr, DecidableEq

def SearchOut.statusCode : SearchOut → Nat
  | .queryRequired => 400
  | .results _ _ _ => 200
  | .internalError => 500

def SearchOut.bookData : SearchOut → Option (List Book)
  | .queryRequired => none
  | .results ms _ _ => some ms
  | .internalError => none

def SearchOut.message : SearchOut → Option String
  | .queryRequired => some "Search query parameter 'q' is required"
  | .results _ _ _ => none
  | .internalError => some "Failed to search books"

/-- The `query` local of `search_book`:
`request.args.get('q', '').lower().strip()`. -/
def normQuery (rawQ : Option String) : String :=
  pyStrip (pyLower (rawQ.getD ""))

/-- `search_book`: 400 when the normalized query is falsy, else the scan;
the catch-all maps an exception to 500.  The store is never written. -/
def search_book (books : State) (rawQ : Option String) : SearchOut × State :=
  if normQuery rawQ == "" then (.queryRequired, books)
  else
    match searchScan (normQuery rawQ) books with
    | .error _ => (.internalError, books)
    | .ok ms => (.results ms ms.length (normQuery rawQ), books)

/-- One mutating request, for stating reachability invariants. -/
inductive Op where
  | create (data : CreateBody)
  | update (book_id : Nat) (data : UpdateBody)
  | delete (book_id : Nat)
deriving Repr, DecidableEq

/-- The store after one request (responses discarded). -/
def applyOp (s : State) : Op → State
  | .create d => (create_book s d).2
  | .update i d => (update_book s i d).2
  | .delete i => (delete_book s i).2

/-- The store after a sequence of requests. -/
def runOps (s : State) (ops : List Op) : State :=
  ops.foldl applyOp s

/-- One field's contribution to a search match, total form: a `None` field
never matches (used to state search results for stores whose required
fields are all strings). -/
def fieldHit (query : String) : Option String → Bool
  | none => false
  | some s => strIn query (pyLower s)

/-- Total form of the search match test. -/
def hitsBook (query : String) (b : Book) : Bool :=
  fieldHit query b.title || fieldHit query b.author || fieldHit query b.language

/-- The spec's required-field invariant for one book: `title`, `author`
and `language` are all present, non-`None`, non-empty strings. -/
def requiredFilled (b : Book) : Bool :=
  truthyStr b.title && truthyStr b.author && truthyStr b.language

/-- An update body whose present required-field values are all non-empty
strings (absent required fields are unconstrained). -/
def UpdateBody.keepsRequired (d : UpdateBody) : Bool :=
  (match d.title with | some v => truthyStr v | none => true) &&
  (match d.author with | some v => truthyStr v | none => true) &&
  (match d.language with | some v => truthyStr v | none => true)

/-- A request that cannot blank a required field. -/
def Op.keepsRequired : Op → Bool
  | .update _ d => d.keepsRequired
  | _ => true

/-- A concrete update body exercising every presence shape: an `id` key,
a string value, an absent key, a `null` value and an empty string. -/
def updBodyA : UpdateBody :=
  ⟨some 999, some (some "Renamed"), none, some none, some (some ""), none,
   some (some "Poetry")⟩

/-- The first initial book, for instantiating the update theorems. -/
def book1 : Book :=
  { id := 1, title := some "To Kill a Mockingbird", author := some "Harper Lee",
    language := some "English", isbn := some "978-0-06-112008-4",
    published_year := some 1960, genre := some "Fiction" }

/-- The initial store without its first book. -/
def booksTail1 : State := initialBooks.tail

/-- A concrete update body that carries an `id` key. -/
def updBodyB : UpdateBody :=
  ⟨some 999, some (some "Other"), none, none, none, none, none⟩

/-- The book `updBodyB` produces from the initial book with id 3. -/
def updOutB : Book :=
  { id := 3, title := some "Other", author := some "Jane Austen",
    language := some "English", isbn := some "978-0-14-143951-8",
    published_year := some 1813, genre := some "Romance" }

/-- A create body with no keys at all. -/
def emptyCreate : CreateBody := ⟨none, none, none, none, none, none⟩

/-- An update body whose only present key is a `title` holding the empty
string. -/
def blankTitleBody : UpdateBody :=
  ⟨none, some (some ""), none, none, none, none, none⟩

/-- The first initial book after `blankTitleBody` blanks its title. -/
def blankTitleBook : Book :=
  { id := 1, title := some "", author := some "Harper Lee",
    language := some "English", isbn := some "978-0-06-112008-4",
    published_year := some 1960, genre := some "Fiction" }

/-- A concrete request sequence whose updates keep required fields. -/
def wOps : List Op :=
  [.delete 6, .create ⟨some "X", some "Y", some "English", none, none, none⟩,
   .update 2 updBodyB]

end BookApi

namespace BookApi

theorem le_foldlMax_init (is : List Nat) (i : Nat) : i ≤ is.foldl Nat.max i := by
  induction is generalizing i with
  | nil => exact Nat.le_refl i
  | cons x xs ih => exact Nat.le_trans (Nat.le_max_left i x) (ih (Nat.max i x))

theorem le_foldlMax_of_mem (is : List Nat) (i j : Nat) (h : j ∈ is) :
    j ≤ is.foldl Nat.max i := by
  induction is generalizing i with
  | nil => cases h
  | cons x xs ih =>
      rcases List.mem_cons.mp h with rfl | h
      · exact Nat.le_trans (Nat.le_max_right i j) (le_foldlMax_init xs (Nat.max i j))
      · exact ih (Nat.max i x) h

theorem foldlMax_ub (is : List Nat) (i j : Nat) (h : j ∈ i :: is) :
    j ≤ is.foldl Nat.max i := by
  rcases List.mem_cons.mp h with rfl | h
  · exact le_foldlMax_init is j
  · exact le_foldlMax_of_mem is i j h

theorem foldlMax_mem (is : List Nat) (i : Nat) : is.foldl Nat.max i ∈ i :: is := by
  induction is generalizing i with
  | nil => exact List.mem_singleton.mpr rfl
  | cons x xs ih =>
      have hm := ih (Nat.max i x)
      have hchoice : Nat.max i x = i ∨ Nat.max i x = x := by
        rcases Nat.le_total i x with h | h
        · exact Or.inr (Nat.max_eq_right h)
        · exact Or.inl (Nat.max_eq_left h)
      rcases List.mem_cons.mp hm with he | he
      · rcases hchoice with hc | hc
        · rw [List.foldl_cons, he, hc]
          exact List.mem_cons_self i (x :: xs)
        · rw [List.foldl_cons, he, hc]
          exact List.mem_cons.mpr (Or.inr (List.mem_cons_self x xs))
      · rw [List.foldl_cons]
        exact List.mem_cons.mpr (Or.inr (List.mem_cons.mpr (Or.inr he)))

theorem create_book_valid (books : State) (data : CreateBody)
    (ht : truthyStr data.title = true) (ha : truthyStr data.author = true)
    (hl : truthyStr data.language = true) :
    create_book books data =
      (.created (mkNewBook books data), books ++ [mkNewBook books data]) := by
  unfold create_book
  rw [ht, ha, hl]
  rfl

/-- Claim C1: a valid create request (title, author, language all truthy)
appends the new book at the end of the store; its id is 1 when the store
was empty, and `m + 1` where `m` is the maximum existing id otherwise. -/
theorem create_assigns_next_id (books : State) (data : CreateBody)
    (ht : truthyStr data.title = true) (ha : truthyStr data.author = true)
    (hl : truthyStr data.language = true) :
    ∃ b, create_book books data = (.created b, books ++ [b]) ∧
      (books = [] → b.id = 1) ∧
      (books ≠ [] → ∃ m ∈ books.map Book.id,
        (∀ i ∈ books.map Book.id, i ≤ m) ∧ b.id = m + 1) := by
  refine ⟨mkNewBook books data, create_book_valid books data ht ha hl, ?_, ?_⟩
  · rintro rfl
    rfl
  · intro hne
    match books with
    | [] => exact absurd rfl hne
    | c :: cs =>
        refine ⟨(cs.map Book.id).foldl Nat.max c.id, ?_, ?_, rfl⟩
        · exact foldlMax_mem (cs.map Book.id) c.id
        · exact fun i hi => foldlMax_ub (cs.map Book.id) c.id i hi

theorem create_assigns_next_id_witness :
    truthyStr (some "X") = true ∧
    (∃ b, create_book initialBooks ⟨some "X", some "Y", some "English", none, none, none⟩ =
        (.created b, initialBooks ++ [b]) ∧
      (initialBooks = [] → b.id = 1) ∧
      (initialBooks ≠ [] → ∃ m ∈ initialBooks.map Book.id,
        (∀ i ∈ initialBooks.map Book.id, i ≤ m) ∧ b.id = m + 1)) :=
  ⟨by decide,
   create_assigns_next_id initialBooks
     ⟨some "X", some "Y", some "English", none, none, none⟩
     (by decide) (by decide) (by decide)⟩

end BookApi

namespace BookApi

/-- Claim C6: `create_book` validates `title`, `author`, `language` in that
order; the first falsy one is named in a 400 response; a body holding only
a title yields a 400 naming `author`. -/
theorem create_validates_in_order (books : State) (data : CreateBody) :
    (truthyStr data.title = false →
        create_book books data = (.missingField "title", books)) ∧
    (truthyStr data.title = true → truthyStr data.author = false →
        create_book books data = (.missingField "author", books)) ∧
    (truthyStr data.title = true → truthyStr data.author = true →
        truthyStr data.language = false →
        create_book books data = (.missingField "language", books)) ∧
    (∀ f, (CreateOut.missingField f).statusCode = 400 ∧
        (CreateOut.missingField f).message = "Missing required field: " ++ f) ∧
    create_book books ⟨some "X", none, none, none, none, none⟩ =
      (.missingField "author", books) := by
  refine ⟨?_, ?_, ?_, fun f => ⟨rfl, rfl⟩, ?_⟩
  · intro h1
    unfold create_book
    rw [h1]
    rfl
  · intro h1 h2
    unfold create_book
    rw [h1, h2]
    rfl
  · intro h1 h2 h3
    unfold create_book
    rw [h1, h2, h3]
    rfl
  · unfold create_book
    rw [show truthyStr (some "X") = true from by decide]
    rfl

theorem create_validates_in_order_witness :
    truthyStr (some "X") = true ∧ truthyStr (none : Option String) = false ∧
    create_book initialBooks ⟨some "X", none, none, none, none, none⟩ =
      (.missingField "author", initialBooks) :=
  ⟨by decide, by decide,
   (create_validates_in_order initialBooks
      ⟨some "X", none, none, none, none, none⟩).2.1 (by decide) (by decide)⟩

/-- Claim C7: the search result only depends on the lower-cased query, so
two queries equal up to letter case — such as "fiction" and "FICTION" —
give identical responses on every store. -/
theorem search_depends_on_lowered_query (books : State) (q₁ q₂ : String)
    (h : pyLower q₁ = pyLower q₂) :
    search_book books (some q₁) = search_book books (some q₂) := by
  unfold search_book normQuery
  rw [Option.getD_some, Option.getD_some, h]

theorem search_depends_on_lowered_query_witness :
    pyLower "fiction" = pyLower "FICTION" ∧
    search_book initialBooks (some "fiction") =
      search_book initialBooks (some "FICTION") :=
  ⟨by decide, search_depends_on_lowered_query initialBooks "fiction" "FICTION" (by decide)⟩

/-- Claim C8: when the query parameter is absent, or lowers and strips to
the empty string, search answers 400 with the query-required message,
carries no book data, and leaves the store alone. -/
theorem search_blank_query_rejected (books : State) (rawQ : Option String)
    (h : pyStrip (pyLower (rawQ.getD "")) = "") :
    search_book books rawQ = (.queryRequired, books) ∧
    SearchOut.queryRequired.statusCode = 400 ∧
    SearchOut.queryRequired.message = some "Search query parameter 'q' is required" ∧
    SearchOut.queryRequired.bookData = none := by
  refine ⟨?_, rfl, rfl, rfl⟩
  unfold search_book normQuery
  rw [h]
  rfl

theorem search_blank_query_rejected_witness :
    pyStrip (pyLower ((some "  \t ").getD "")) = "" ∧
    search_book initialBooks (some "  \t ") = (.queryRequired, initialBooks) :=
  ⟨by decide,
   (search_blank_query_rejected initialBooks (some "  \t ") (by decide)).1⟩

end BookApi

namespace BookApi

theorem applyUpdate_eq (data : UpdateBody) (b : Book) :
    applyUpdate data b =
      { id := b.id
        title := data.title.getD b.title
        author := data.author.getD b.author
        language := data.language.getD b.language
        isbn := data.isbn.getD b.isbn
        published_year := data.published_year.getD b.published_year
        genre := data.genre.getD b.genre } := by
  obtain ⟨di, dt, da, dl, dis, dy, dg⟩ := data
  cases dt <;> cases da <;> cases dl <;> cases dis <;> cases dy <;> cases dg <;> rfl

theorem applyUpdate_id (data : UpdateBody) (b : Book) :
    (applyUpdate data b).id = b.id := by
  rw [applyUpdate_eq]

theorem find_book_prepend_miss (pre rest : State) (book_id : Nat)
    (hpre : ∀ c ∈ pre, c.id ≠ book_id) :
    find_book_by_id (pre ++ rest) book_id = find_book_by_id rest book_id := by
  induction pre with
  | nil => rfl
  | cons c cs ih =>
      have hc : (c.id == book_id) = false := by
        simpa using hpre c (List.mem_cons_self c cs)
      show List.find? _ (c :: (cs ++ rest)) = _
      rw [List.find?_cons, hc]
      exact ih (fun d hd => hpre d (List.mem_cons.mpr (Or.inr hd)))

theorem find_book_cons_hit (b : Book) (rest : State) (book_id : Nat)
    (hb : b.id = book_id) :
    find_book_by_id (b :: rest) book_id = some b :=
  List.find?_cons_of_pos _ (by simpa using hb)

theorem updateFirst_prepend_miss (pre rest : State) (book_id : Nat)
    (data : UpdateBody) (hpre : ∀ c ∈ pre, c.id ≠ book_id) :
    updateFirst (pre ++ rest) book_id data = pre ++ updateFirst rest book_id data := by
  induction pre with
  | nil => rfl
  | cons c cs ih =>
      have hc : ¬ ((c.id == book_id) = true) := by
        simpa using hpre c (List.mem_cons_self c cs)
      show (if (c.id == book_id) = true
            then applyUpdate data c :: (cs ++ rest)
            else c :: updateFirst (cs ++ rest) book_id data) =
          (c :: cs) ++ updateFirst rest book_id data
      rw [if_neg hc, ih (fun d hd => hpre d (List.mem_cons.mpr (Or.inr hd)))]
      rfl

theorem updateFirst_cons_hit (b : Book) (rest : State) (book_id : Nat)
    (data : UpdateBody) (hb : b.id = book_id) :
    updateFirst (b :: rest) book_id data = applyUpdate data b :: rest := by
  unfold updateFirst
  rw [if_pos (by simpa using hb)]

theorem update_book_missing (books : State) (book_id : Nat) (data : UpdateBody)
    (hf : find_book_by_id books book_id = none) :
    update_book books book_id data = (.notFound book_id, books) := by
  unfold update_book
  rw [hf]

theorem update_book_found (books : State) (book_id : Nat) (data : UpdateBody)
    (b : Book) (hf : find_book_by_id books book_id = some b) :
    update_book books book_id data =
      (.updated (applyUpdate data b), updateFirst books book_id data) := by
  unfold update_book
  rw [hf]

/-- Claim C2: update overwrites exactly the fields whose keys are present
in the body — a key present with a `null` or empty value still overwrites —
leaves absent fields unchanged, returns the updated book in place, and
answers NotFound (404) when no book carries the id. -/
theorem update_partial_overwrite (books : State) (book_id : Nat) (data : UpdateBody) :
    ((∀ c ∈ books, c.id ≠ book_id) →
        update_book books book_id data = (.notFound book_id, books) ∧
        (UpdateOut.notFound book_id).statusCode = 404) ∧
    (∀ pre b post, books = pre ++ b :: post → (∀ c ∈ pre, c.id ≠ book_id) →
        b.id = book_id →
        ∃ upd, update_book books book_id data = (.updated upd, pre ++ upd :: post) ∧
          upd.id = b.id ∧
          upd.title = data.title.getD b.title ∧
          upd.author = data.author.getD b.author ∧
          upd.language = data.language.getD b.language ∧
          upd.isbn = data.isbn.getD b.isbn ∧
          upd.published_year = data.published_year.getD b.published_year ∧
          upd.genre = data.genre.getD b.genre) := by
  constructor
  · intro hnone
    have hf : find_book_by_id books book_id = none := by
      apply List.find?_eq_none.mpr
      intro c hc
      simpa using hnone c hc
    exact ⟨update_book_missing books book_id data hf, rfl⟩
  · rintro pre b post rfl hpre hb
    have hf : find_book_by_id (pre ++ b :: post) book_id = some b := by
      rw [find_book_prepend_miss pre (b :: post) book_id hpre]
      exact find_book_cons_hit b post book_id hb
    refine ⟨applyUpdate data b, ?_, ?_, ?_, ?_, ?_, ?_, ?_, ?_⟩
    · rw [update_book_found (pre ++ b :: post) book_id data b hf,
          updateFirst_prepend_miss pre (b :: post) book_id data hpre,
          updateFirst_cons_hit b post book_id data hb]
    all_goals rw [applyUpdate_eq]

theorem update_partial_overwrite_witness :
    ∃ upd, update_book initialBooks 1 updBodyA = (.updated upd, [] ++ upd :: booksTail1) ∧
      upd.id = book1.id ∧
      upd.title = updBodyA.title.getD book1.title ∧
      upd.author = updBodyA.author.getD book1.author ∧
      upd.language = updBodyA.language.getD book1.language ∧
      upd.isbn = updBodyA.isbn.getD book1.isbn ∧
      upd.published_year = updBodyA.published_year.getD book1.published_year ∧
      upd.genre = updBodyA.genre.getD book1.genre :=
  (update_partial_overwrite initialBooks 1 updBodyA).2 [] book1 booksTail1
    (by decide) (by decide) (by decide)

theorem updateFirst_map_id (books : State) (book_id : Nat) (data : UpdateBody) :
    (updateFirst books book_id data).map Book.id = books.map Book.id := by
  induction books with
  | nil => rfl
  | cons c cs ih =>
      unfold updateFirst
      by_cases hc : (c.id == book_id) = true
      · rw [if_pos hc]
        simp [applyUpdate_id]
      · rw [if_neg hc]
        simp [ih]

/-- Claim C9: update never changes any book's id — the stored id sequence
is untouched whatever the body holds (even an `id` key), and the returned
book keeps the target id. -/
theorem update_never_changes_id (books : State) (book_id : Nat) (data : UpdateBody) :
    (update_book books book_id data).2.map Book.id = books.map Book.id ∧
    (∀ upd, (update_book books book_id data).1 = .updated upd → upd.id = book_id) := by
  constructor
  · cases hf : find_book_by_id books book_id with
    | none => rw [update_book_missing books book_id data hf]
    | some b =>
        rw [update_book_found books book_id data b hf]
        exact updateFirst_map_id books book_id data
  · intro upd h
    cases hf : find_book_by_id books book_id with
    | none =>
        rw [update_book_missing books book_id data hf] at h
        exact absurd h (by simp)
    | some b =>
        rw [update_book_found books book_id data b hf] at h
        have h2 : UpdateOut.updated (applyUpdate data b) = UpdateOut.updated upd := h
        have h3 : applyUpdate data b = upd := by injection h2
        rw [← h3, applyUpdate_id]
        simpa using List.find?_some hf

theorem update_never_changes_id_witness :
    (update_book initialBooks 3 updBodyB).2.map Book.id = initialBooks.map Book.id ∧
    updOutB.id = 3 :=
  ⟨(update_never_changes_id initialBooks 3 updBodyB).1,
   (update_never_changes_id initialBooks 3 updBodyB).2 updOutB (by decide)⟩

end BookApi

namespace BookApi

theorem delete_book_missing (books : State) (book_id : Nat)
    (hf : find_book_by_id books book_id = none) :
    delete_book books book_id = (.notFound book_id, books) := by
  unfold delete_book
  rw [hf]

theorem delete_book_found (books : State) (book_id : Nat) (b : Book)
    (hf : find_book_by_id books book_id = some b) :
    delete_book books book_id = (.deleted book_id, removeFirst books book_id) := by
  unfold delete_book
  rw [hf]

theorem create_book_cases (books : State) (data : CreateBody) :
    (create_book books data).2 = books ∨
    ((create_book books data).2 = books ++ [mkNewBook books data] ∧
     (create_book books data).1 = .created (mkNewBook books data) ∧
     truthyStr data.title = true ∧ truthyStr data.author = true ∧
     truthyStr data.language = true) := by
  unfold create_book
  cases htt : truthyStr data.title with
  | false => exact Or.inl rfl
  | true =>
      cases hta : truthyStr data.author with
      | false => exact Or.inl rfl
      | true =>
          cases htl : truthyStr data.language with
          | false => exact Or.inl rfl
          | true => exact Or.inr ⟨rfl, rfl, rfl, rfl, rfl⟩

theorem search_book_state (books : State) (q : Option String) :
    (search_book books q).2 = books := by
  unfold search_book
  by_cases h : (normQuery q == "") = true
  · rw [if_pos h]
  · rw [if_neg h]
    cases searchScan (normQuery q) books <;> rfl

/-- Claim C10: every enumerated error response — create with a missing
required field, update or delete with an unknown id, search with a blank
query — leaves the store's collection exactly as it was. -/
theorem error_responses_preserve_store (books : State) :
    (∀ data f, (create_book books data).1 = .missingField f →
        (create_book books data).2 = books) ∧
    (∀ i d, (update_book books i d).1 = .notFound i →
        (update_book books i d).2 = books) ∧
    (∀ i, (delete_book books i).1 = .notFound i →
        (delete_book books i).2 = books) ∧
    (∀ q, (search_book books q).1 = .queryRequired →
        (search_book books q).2 = books) := by
  refine ⟨?_, ?_, ?_, ?_⟩
  · intro data f h
    rcases create_book_cases books data with hc | ⟨hc, hout, _⟩
    · exact hc
    · rw [hout] at h
      cases h
  · intro i d h
    cases hf : find_book_by_id books i with
    | none => rw [update_book_missing books i d hf]
    | some b =>
        rw [update_book_found books i d b hf] at h
        exact absurd h (by simp)
  · intro i h
    cases hf : find_book_by_id books i with
    | none => rw [delete_book_missing books i hf]
    | some b =>
        rw [delete_book_found books i b hf] at h
        exact absurd h (by simp)
  · intro q h
    exact search_book_state books q

theorem error_responses_preserve_store_witness :
    (create_book initialBooks emptyCreate).2 = initialBooks ∧
    (update_book initialBooks 99 updBodyB).2 = initialBooks ∧
    (delete_book initialBooks 99).2 = initialBooks ∧
    (search_book initialBooks (some "  ")).2 = initialBooks :=
  ⟨(error_responses_preserve_store initialBooks).1 emptyCreate "title" (by decide),
   (error_responses_preserve_store initialBooks).2.1 99 updBodyB (by decide),
   (error_responses_preserve_store initialBooks).2.2.1 99 (by decide),
   (error_responses_preserve_store initialBooks).2.2.2 (some "  ") (by decide)⟩

end BookApi

namespace BookApi

theorem bookHit_total (query : String) (b : Book)
    (ht : b.title.isSome = true) (ha : b.author.isSome = true)
    (hl : b.language.isSome = true) :
    bookHit query b = .ok (hitsBook query b) := by
  obtain ⟨t, htt⟩ := Option.isSome_iff_exists.mp ht
  obtain ⟨a, haa⟩ := Option.isSome_iff_exists.mp ha
  obtain ⟨l, hll⟩ := Option.isSome_iff_exists.mp hl
  simp only [bookHit, hitsBook, fieldHit, htt, haa, hll]
  by_cases h1 : strIn query (pyLower t) = true
  · simp [h1]
  · by_cases h2 : strIn query (pyLower a) = true
    · simp [h1, h2]
    · simp [h1, h2]

theorem searchScan_total (query : String) (books : State)
    (hw : ∀ b ∈ books, b.title.isSome = true ∧ b.author.isSome = true ∧
        b.language.isSome = true) :
    searchScan query books = .ok (books.filter (hitsBook query)) := by
  induction books with
  | nil => rfl
  | cons c cs ih =>
      obtain ⟨ht, ha, hl⟩ := hw c (List.mem_cons_self c cs)
      have hrest := ih (fun d hd => hw d (List.mem_cons.mpr (Or.inr hd)))
      unfold searchScan
      rw [bookHit_total query c ht ha hl, hrest, List.filter_cons]

/-- Claim C3: for a query that normalizes to a non-blank string, over a
store whose required fields are all strings, search returns 200 with
exactly the books whose lower-cased title, author or language contains the
normalized query, kept in store order; at the initial store the query
"spanish" selects precisely the two Spanish-language books. -/
theorem search_members_in_order (books : State) (rawQ : String)
    (hq : normQuery (some rawQ) ≠ "")
    (hw : ∀ b ∈ books, b.title.isSome = true ∧ b.author.isSome = true ∧
        b.language.isSome = true) :
    ∃ ms, search_book books (some rawQ) =
        (.results ms ms.length (normQuery (some rawQ)), books) ∧
      (∀ b, b ∈ ms ↔ b ∈ books ∧
        (fieldHit (normQuery (some rawQ)) b.title ||
         fieldHit (normQuery (some rawQ)) b.author ||
         fieldHit (normQuery (some rawQ)) b.language) = true) ∧
      List.Sublist ms books ∧
      (books = initialBooks → rawQ = "spanish" →
        ms.length = 2 ∧ ∀ b ∈ ms, b.language = some "Spanish") := by
  refine ⟨books.filter (hitsBook (normQuery (some rawQ))), ?_, ?_, ?_, ?_⟩
  · unfold search_book
    rw [if_neg (by simpa using hq), searchScan_total _ _ hw]
  · intro b
    exact List.mem_filter
  · exact List.filter_sublist books
  · rintro rfl rfl
    exact ⟨by decide, by decide⟩

theorem search_members_in_order_witness :
    normQuery (some "spanish") ≠ "" ∧
    (∃ ms, search_book initialBooks (some "spanish") =
        (.results ms ms.length (normQuery (some "spanish")), initialBooks) ∧
      (∀ b, b ∈ ms ↔ b ∈ initialBooks ∧
        (fieldHit (normQuery (some "spanish")) b.title ||
         fieldHit (normQuery (some "spanish")) b.author ||
         fieldHit (normQuery (some "spanish")) b.language) = true) ∧
      List.Sublist ms initialBooks ∧
      (initialBooks = initialBooks → "spanish" = "spanish" →
        ms.length = 2 ∧ ∀ b ∈ ms, b.language = some "Spanish")) :=
  ⟨by decide,
   search_members_in_order initialBooks "spanish" (by decide) (by decide)⟩

end BookApi

namespace BookApi

theorem id_lt_next (books : State) (i : Nat) (hi : i ∈ books.map Book.id) :
    i < get_next_book_id books := by
  match books with
  | [] => simp at hi
  | c :: cs =>
      have hle : i ≤ (cs.map Book.id).foldl Nat.max c.id :=
        foldlMax_ub (cs.map Book.id) c.id i (by simpa using hi)
      exact Nat.lt_succ_of_le hle

theorem removeFirst_sublist (books : State) (book_id : Nat) :
    List.Sublist (removeFirst books book_id) books := by
  induction books with
  | nil => exact List.Sublist.refl []
  | cons c cs ih =>
      show List.Sublist
        (if (c.id == book_id) = true then cs else c :: removeFirst cs book_id)
        (c :: cs)
      by_cases hc : (c.id == book_id) = true
      · rw [if_pos hc]
        exact List.sublist_cons_self c cs
      · rw [if_neg hc]
        exact List.Sublist.cons₂ c ih

theorem applyOp_nodup (s : State) (op : Op) (h : (s.map Book.id).Nodup) :
    ((applyOp s op).map Book.id).Nodup := by
  cases op with
  | create d =>
      show ((create_book s d).2.map Book.id).Nodup
      rcases create_book_cases s d with hc | ⟨hc, _, _⟩
      · rw [hc]
        exact h
      · rw [hc, List.map_append, List.nodup_append]
        refine ⟨h, by simp, ?_⟩
        intro i hi hmem
        have hlt := id_lt_next s i hi
        have heq : i = get_next_book_id s := by simpa [mkNewBook] using hmem
        omega
  | update i d =>
      show ((update_book s i d).2.map Book.id).Nodup
      cases hf : find_book_by_id s i with
      | none =>
          rw [update_book_missing s i d hf]
          exact h
      | some b =>
          rw [update_book_found s i d b hf]
          rw [show ((UpdateOut.updated (applyUpdate d b), updateFirst s i d)).2 =
              updateFirst s i d from rfl, updateFirst_map_id]
          exact h
  | delete i =>
      show ((delete_book s i).2.map Book.id).Nodup
      cases hf : find_book_by_id s i with
      | none =>
          rw [delete_book_missing s i hf]
          exact h
      | some b =>
          rw [delete_book_found s i b hf]
          exact List.Nodup.sublist
            (List.Sublist.map Book.id (removeFirst_sublist s i)) h

/-- Claim C5: starting from the initial store, after any sequence of
create, update and delete requests no two books in the store share an id. -/
theorem store_ids_nodup (ops : List Op) :
    ((runOps initialBooks ops).map Book.id).Nodup := by
  have general : ∀ (l : List Op) (s : State), (s.map Book.id).Nodup →
      ((runOps s l).map Book.id).Nodup := by
    intro l
    induction l with
    | nil => exact fun s h => h
    | cons op rest ih => exact fun s h => ih (applyOp s op) (applyOp_nodup s op h)
  exact general ops initialBooks (by decide)

end BookApi

namespace BookApi

theorem truthy_getD (v : Option (Option String)) (w : Option String)
    (hv : (match v with | some u => truthyStr u | none => true) = true)
    (hw : truthyStr w = true) : truthyStr (v.getD w) = true := by
  cases v with
  | none => exact hw
  | some u => exact hv

theorem applyUpdate_keeps_required (data : UpdateBody) (b : Book)
    (hd : data.keepsRequired = true) (hb : requiredFilled b = true) :
    requiredFilled (applyUpdate data b) = true := by
  rw [applyUpdate_eq]
  show (truthyStr (data.title.getD b.title) &&
        truthyStr (data.author.getD b.author) &&
        truthyStr (data.language.getD b.language)) = true
  have hb3 : truthyStr b.title = true ∧ truthyStr b.author = true ∧
      truthyStr b.language = true := by
    simpa [requiredFilled, Bool.and_eq_true, and_assoc] using hb
  have hd3 : (match data.title with | some u => truthyStr u | none => true) = true ∧
      (match data.author with | some u => truthyStr u | none => true) = true ∧
      (match data.language with | some u => truthyStr u | none => true) = true := by
    simpa [UpdateBody.keepsRequired, Bool.and_eq_true, and_assoc] using hd
  rw [truthy_getD data.title b.title hd3.1 hb3.1,
      truthy_getD data.author b.author hd3.2.1 hb3.2.1,
      truthy_getD data.language b.language hd3.2.2 hb3.2.2]
  rfl

theorem mem_updateFirst (books : State) (book_id : Nat) (data : UpdateBody)
    (b : Book) (hb : b ∈ updateFirst books book_id data) :
    b ∈ books ∨ ∃ c ∈ books, b = applyUpdate data c := by
  induction books with
  | nil => cases hb
  | cons c cs ih =>
      rw [show updateFirst (c :: cs) book_id data =
          (if (c.id == book_id) = true then applyUpdate data c :: cs
           else c :: updateFirst cs book_id data) from rfl] at hb
      by_cases hc : (c.id == book_id) = true
      · rw [if_pos hc] at hb
        rcases List.mem_cons.mp hb with rfl | hmem
        · exact Or.inr ⟨c, List.mem_cons_self c cs, rfl⟩
        · exact Or.inl (List.mem_cons.mpr (Or.inr hmem))
      · rw [if_neg hc] at hb
        rcases List.mem_cons.mp hb with rfl | hmem
        · exact Or.inl (List.mem_cons_self _ cs)
        · rcases ih hmem with h1 | ⟨d, hd, he⟩
          · exact Or.inl (List.mem_cons.mpr (Or.inr h1))
          · exact Or.inr ⟨d, List.mem_cons.mpr (Or.inr hd), he⟩

theorem applyOp_keeps_required (s : State) (op : Op)
    (hop : op.keepsRequired = true)
    (h : ∀ b ∈ s, requiredFilled b = true) :
    ∀ b ∈ applyOp s op, requiredFilled b = true := by
  cases op with
  | create d =>
      intro b hb
      rcases create_book_cases s d with hc | ⟨hc, _, htt, hta, htl⟩
      · rw [show applyOp s (.create d) = (create_book s d).2 from rfl, hc] at hb
        exact h b hb
      · rw [show applyOp s (.create d) = (create_book s d).2 from rfl, hc] at hb
        rcases List.mem_append.mp hb with hmem | hmem
        · exact h b hmem
        · have hbe : b = mkNewBook s d := by simpa using hmem
          rw [hbe]
          show (truthyStr d.title && truthyStr d.author && truthyStr d.language) = true
          rw [htt, hta, htl]
          rfl
  | update i d =>
      intro b hb
      have hd : d.keepsRequired = true := hop
      cases hf : find_book_by_id s i with
      | none =>
          rw [show applyOp s (.update i d) = (update_book s i d).2 from rfl,
              update_book_missing s i d hf] at hb
          exact h b hb
      | some c =>
          rw [show applyOp s (.update i d) = (update_book s i d).2 from rfl,
              update_book_found s i d c hf] at hb
          rcases mem_updateFirst s i d b hb with hmem | ⟨c2, hc2, hbe⟩
          · exact h b hmem
          · rw [hbe]
            exact applyUpdate_keeps_required d c2 hd (h c2 hc2)
  | delete i =>
      intro b hb
      cases hf : find_book_by_id s i with
      | none =>
          rw [show applyOp s (.delete i) = (delete_book s i).2 from rfl,
              delete_book_missing s i hf] at hb
          exact h b hb
      | some c =>
          rw [show applyOp s (.delete i) = (delete_book s i).2 from rfl,
              delete_book_found s i c hf] at hb
          exact h b ((removeFirst_sublist s i).subset hb)

/-- Claim C4 as stated is false on the code: the update handler checks
only key presence, so an update whose body holds an empty title stores an
empty title.  One concrete update on the initial store reaches a book
whose required field is empty. -/
theorem required_fields_counterexample :
    ¬ (∀ ops : List Op, ∀ b ∈ runOps initialBooks ops,
        requiredFilled b = true) := by
  intro hAll
  have hmem : blankTitleBook ∈ runOps initialBooks [Op.update 1 blankTitleBody] := by
    decide
  have hfill := hAll [Op.update 1 blankTitleBody] blankTitleBook hmem
  exact absurd hfill (by decide)

/-- Claim C4, amended: after any sequence of create, update and delete
requests in which every update body's present required-field values are
non-empty strings, every book in the store has non-empty (and non-`None`)
title, author and language; creates and deletes alone can never break the
invariant, and only an update presenting an empty or `null` required-field
value can. -/
theorem required_fields_amended (ops : List Op)
    (hops : ∀ op ∈ ops, op.keepsRequired = true) :
    ∀ b ∈ runOps initialBooks ops, requiredFilled b = true := by
  have general : ∀ (l : List Op) (s : State),
      (∀ op ∈ l, op.keepsRequired = true) →
      (∀ b ∈ s, requiredFilled b = true) →
      ∀ b ∈ runOps s l, requiredFilled b = true := by
    intro l
    induction l with
    | nil => exact fun s _ h => h
    | cons op rest ih =>
        exact fun s hl h =>
          ih (applyOp s op) (fun o ho => hl o (List.mem_cons.mpr (Or.inr ho)))
            (applyOp_keeps_required s op (hl op (List.mem_cons_self op rest)) h)
  exact general ops initialBooks hops (by decide)

theorem required_fields_amended_witness :
    (∀ op ∈ wOps, Op.keepsRequired op = true) ∧
    (∀ b ∈ runOps initialBooks wOps, requiredFilled b = true) :=
  ⟨by decide, required_fields_amended wOps (by decide)⟩

end BookApi
